import Mathlib

set_option maxRecDepth 10000

/- Verification development for the devocionalapp repository: a shallow embedding of
   the daily-content cache and audio pipeline of src/index.tsx and of the offline
   service worker (install / fetch / activate listeners), together with proofs of
   the behavioural properties of those functions. Platform primitives (localStorage,
   JSON round-trip, atob, Int16Array views, the Cache Storage API) are embedded by
   executable Lean functions with the same observable behaviour. -/

namespace DevocionalApp

/-- The structured devotional record (interface DevotionalContent, src/index.tsx
lines 13-20). All six fields are strings. -/
structure DevotionalContent where
  title : String
  verseReference : String
  verseText : String
  reflection : String
  application : String
  prayer : String
deriving DecidableEq

/-- A string persisted in localStorage, as seen by JSON.parse with expected shape
DevotionalContent. JSON.stringify of a record is modelled by the injective
constructor json; every other string (one that makes JSON.parse throw, or parse to
a non-record) is modelled by corrupt together with its raw text. -/
inductive StoredValue
  | json (c : DevotionalContent)
  | corrupt (raw : String)
deriving DecidableEq

/-- JSON.parse on a persisted string, at type DevotionalContent: succeeds exactly
on serialized records. A none result models the exception JSON.parse throws. -/
def jsonParse : StoredValue → Option DevotionalContent
  | .json c => some c
  | .corrupt _ => none

/-- The localStorage key-value store: an association list from keys to stored
strings, newest binding first. -/
abbrev Store := List (String × StoredValue)

/-- localStorage.getItem. -/
def getItem (st : Store) (k : String) : Option StoredValue :=
  (st.find? fun kv => kv.1 == k).map fun kv => kv.2

/-- localStorage.setItem: replaces any existing binding of the key. -/
def setItem (st : Store) (k : String) (v : StoredValue) : Store :=
  (k, v) :: st.filter fun kv => !(kv.1 == k)

/-- localStorage.removeItem. -/
def removeItem (st : Store) (k : String) : Store :=
  st.filter fun kv => !(kv.1 == k)

/-- The view state of the App component (src/index.tsx line 95). -/
inductive View
  | home
  | reading
  | topics
  | notesList
deriving DecidableEq

/-- An AudioBufferSourceNode handle: started records whether start() was called. -/
structure SourceHandle where
  started : Bool
deriving DecidableEq

/-- The App component state relevant to the cache and audio claims
(src/index.tsx lines 95-118): localStorage contents plus the useState and useRef
cells touched by generateDevotional, handlePlayAudio and stopAudio. -/
structure AppState where
  store : Store
  content : Option DevotionalContent
  currentTopic : String
  view : View
  isLoading : Bool
  userNote : String
  audioSource : Option SourceHandle
  audioContext : Option Unit
  isPlaying : Bool
  isAudioLoading : Bool
deriving DecidableEq

/-- The initial component state (the useState initial values of src/index.tsx
lines 95-114, with an empty localStorage). -/
def initialAppState : AppState :=
  { store := []
    content := none
    currentTopic := ""
    view := .home
    isLoading := false
    userNote := ""
    audioSource := none
    audioContext := none
    isPlaying := false
    isAudioLoading := false }

/-- The error AudioBufferSourceNode.stop() raises when the node was never
started (InvalidStateError). -/
inductive PlaybackHandleError
  | invalidState
deriving DecidableEq

/-- AudioBufferSourceNode.stop(): raises InvalidStateError when start() was never
called on the node, otherwise stops it. -/
def sourceStopOp (h : SourceHandle) : Except PlaybackHandleError SourceHandle :=
  if h.started then .ok { started := false } else .error .invalidState

/-- Embeds stopAudio (src/index.tsx lines 168-184). The try/catch around
source.stop() appears as the match on sourceStopOp whose error branch proceeds
exactly like the ok branch (the comment in the source reads: Ignore if already
stopped). disconnect() and nulling the ref follow; then the context is closed and
nulled; finally both playing flags are cleared. -/
def stopAudio (s : AppState) : AppState :=
  let s1 :=
    match s.audioSource with
    | some h =>
      match sourceStopOp h with
      | .ok _ => { s with audioSource := none }
      | .error _ => { s with audioSource := none }
    | none => s
  let s2 :=
    match s1.audioContext with
    | some _ => { s1 with audioContext := none }
    | none => s1
  { s2 with isPlaying := false, isAudioLoading := false }

/-- The hardcoded fallback record of the catch branch of generateDevotional
(src/index.tsx lines 404-411). -/
def fallbackContent : DevotionalContent :=
  { title := "Um momento de silêncio"
    verseReference := "Salmos 46:10"
    verseText := "Aquietai-vos, e sabei que eu sou Deus."
    reflection := "Às vezes, a tecnologia falha, mas a presença de Deus permanece constante. Respire fundo agora. Talvez este erro seja um convite para apenas fechar os olhos e sentir a paz que excede todo o entendimento.\n\nDeus está no silêncio também. Ele está no espaço entre um pensamento e outro. Sinta-se abraçado pelo Criador agora mesmo."
    application := "Feche os olhos por 1 minuto e apenas respire."
    prayer := "Senhor, obrigado por estar comigo mesmo quando as coisas não saem como planejado. Amém." }

/-- Outcome of one awaited call to the external text generator
(ai.models.generateContent, src/index.tsx line 379). apiFailure models a rejected
promise; apiSuccess carries response.text, where none models an empty or absent
text and some carries the string (as a StoredValue, so that JSON.parse on it is
defined). -/
inductive GenOutcome
  | apiFailure
  | apiSuccess (text : Option StoredValue)
deriving DecidableEq

/-- The daily cache key (src/index.tsx lines 325-326): the literal
daily_devotional_ followed by the current locale-formatted date. -/
def dailyCacheKey (today : String) : String :=
  "daily_devotional_" ++ today

/-- JavaScript truthiness of the topic argument: the guard if (!topic) treats
both null and the empty string as absent. -/
def isFalsyTopic : Option String → Bool
  | none => true
  | some t => t == ""

/-- The navbar label: topic or "Devocional do Dia" (src/index.tsx line 345). -/
def currentTopicLabel (topic : Option String) : String :=
  if isFalsyTopic topic then "Devocional do Dia"
  else topic.getD "Devocional do Dia"

/-- The generation part of generateDevotional (src/index.tsx lines 344-414): the
code after the daily-cache early return. Sets the loading flag, topic label and
reading view, then awaits the generator. The try/catch appears as the match on
the outcome: a rejected call or a JSON.parse exception lands in the catch branch,
which installs fallbackContent; a successful parse installs the record and, on
the daily path only, persists it under the daily key; an empty response.text
does nothing. The finally branch clears the loading flag. Returns the new state
and whether the external generator was invoked (always true here). -/
def generateBody (topic : Option String) (today : String) (o : GenOutcome)
    (s0 : AppState) : AppState × Bool :=
  let s := { s0 with isLoading := true
                     currentTopic := currentTopicLabel topic
                     view := View.reading }
  let s :=
    match o with
    | .apiFailure => { s with content := some fallbackContent }
    | .apiSuccess none => s
    | .apiSuccess (some text) =>
      match jsonParse text with
      | some data =>
        let s := { s with content := some data }
        if isFalsyTopic topic then
          { s with store := setItem s.store (dailyCacheKey today) (.json data) }
        else s
      | none => { s with content := some fallbackContent }
  ({ s with isLoading := false }, true)

/-- Embeds generateDevotional (src/index.tsx lines 318-415). First stopAudio()
and clearing the user note; then, when the topic is absent, the daily cache is
consulted: a parseable entry is returned immediately with no generator call
(return inside the if), a corrupted entry is removed and generation proceeds, a
missing entry proceeds directly. Topic calls always generate. The Bool result
records whether the external generator was invoked. -/
def generateDevotional (topic : Option String) (today : String) (o : GenOutcome)
    (s0 : AppState) : AppState × Bool :=
  let s := { stopAudio s0 with userNote := "" }
  if isFalsyTopic topic then
    let cacheKey := dailyCacheKey today
    match getItem s.store cacheKey with
    | some cachedData =>
      match jsonParse cachedData with
      | some parsed =>
        ({ s with content := some parsed
                  currentTopic := "Devocional do Dia"
                  view := View.reading }, false)
      | none =>
        generateBody topic today o { s with store := removeItem s.store cacheKey }
    | none => generateBody topic today o s
  else generateBody topic today o s

/-- Runs a sequence of daily generateDevotional calls within one local day,
threading the state, counting generator invocations and recording the content
shown after each call. -/
def runDaily (today : String) : List GenOutcome → AppState →
    AppState × Nat × List (Option DevotionalContent)
  | [], s => (s, 0, [])
  | o :: os, s =>
    let r := generateDevotional none today o s
    let rest := runDaily today os r.1
    (rest.1, (if r.2 then 1 else 0) + rest.2.1, r.1.content :: rest.2.2)

/-- Whether an outcome is a resolved generator call whose text parses as a
content record. -/
def isParseableSuccess : GenOutcome → Bool
  | .apiSuccess (some (.json _)) => true
  | _ => false

/-- Whether an outcome makes the try block of generateDevotional throw: a
rejected call, or a resolved call whose text makes JSON.parse throw. -/
def isThrownFailure : GenOutcome → Bool
  | .apiFailure => true
  | .apiSuccess (some (.corrupt _)) => true
  | _ => false

/- Audio codec (src/index.tsx lines 46-73). -/

/-- The base64 alphabet value of a character, by char code: A-Z, a-z, 0-9,
plus and slash; none for every other character. -/
def b64Val (c : Char) : Option Nat :=
  let n := c.toNat
  if 65 ≤ n && n ≤ 90 then some (n - 65)
  else if 97 ≤ n && n ≤ 122 then some (n - 97 + 26)
  else if 48 ≤ n && n ≤ 57 then some (n - 48 + 52)
  else if n = 43 then some 62
  else if n = 47 then some 63
  else none

/-- Removes up to two trailing padding characters, as the forgiving-base64
decode of atob does when the input length is a multiple of four. -/
def dropBase64Pad (cs : List Char) : List Char :=
  match cs.reverse with
  | '=' :: '=' :: rest => rest.reverse
  | '=' :: rest => rest.reverse
  | _ => cs

/-- Maps b64Val over a character list, failing if any character is outside the
alphabet. -/
def mapB64 : List Char → Option (List Nat)
  | [] => some []
  | c :: cs =>
    match b64Val c, mapB64 cs with
    | some v, some vs => some (v :: vs)
    | _, _ => none

/-- Reassembles 6-bit groups into bytes: four groups give three bytes, a
remainder of three groups gives two bytes, a remainder of two gives one byte,
and a remainder of one is illegal. -/
def b64Groups : List Nat → Option (List Nat)
  | [] => some []
  | [_] => none
  | [a, b] => some [a * 4 + b / 16]
  | [a, b, c] => some [a * 4 + b / 16, b % 16 * 16 + c / 4]
  | a :: b :: c :: d :: rest =>
    match b64Groups rest with
    | some t => some ([a * 4 + b / 16, b % 16 * 16 + c / 4, c % 4 * 64 + d] ++ t)
    | none => none

/-- The decode stage of atob after whitespace stripping and padding removal: a
remainder of one character is illegal, otherwise the characters are valued and
the 6-bit groups reassembled into bytes. -/
def atobCore (cs : List Char) : Option (List Nat) :=
  if cs.length % 4 = 1 then none
  else
    match mapB64 cs with
    | some vals => b64Groups vals
    | none => none

/-- Embeds base64ToUint8Array (src/index.tsx lines 46-54): atob, then reading
each char code of the binary string into a byte array. atob performs the
forgiving-base64 decode: ASCII whitespace is stripped, up to two trailing
padding characters are removed when the length is a multiple of four, a
remainder of one character or any character outside the alphabet is an
InvalidCharacterError, modelled by none. -/
def base64ToUint8Array (base64 : String) : Option (List Nat) :=
  let ws : List Char := [' ', '\t', '\n', Char.ofNat 12, '\r']
  let cs := base64.data.filter fun c => !(ws.contains c)
  let cs := if cs.length % 4 = 0 then dropBase64Pad cs else cs
  atobCore cs

/-- A little-endian signed 16-bit sample from two bytes. -/
def int16OfLE (lo hi : Nat) : Int :=
  let u := lo + 256 * hi
  if u < 32768 then (u : Int) else (u : Int) - 65536

/-- The Int16Array view of a byte buffer: consecutive little-endian 16-bit
signed values. -/
def int16ValsLE : List Nat → List Int
  | lo :: hi :: rest => int16OfLE lo hi :: int16ValsLE rest
  | _ => []

/-- The two ways the decode step can throw. alignment is the RangeError raised
by constructing an Int16Array view over a buffer of odd byte length;
notSupported is the NotSupportedError raised by ctx.createBuffer when the
(truncated) frame count is zero. -/
inductive AudioDecodeError
  | alignment
  | notSupported
deriving DecidableEq

/-- Embeds decodeAudioData (src/index.tsx lines 56-73), with the AudioContext
argument elided (it only allocates the buffer). The Int16Array view requires an
even byte length. frameCount is dataInt16.length / numChannels; when that
quotient is fractional, createBuffer receives it through WebIDL unsigned-long
conversion, which truncates, and the copy loop writes past the buffer end are
silently dropped, so each channel effectively holds the floor. A zero frame
count makes createBuffer throw. Channel data is
dataInt16[i * numChannels + channel] / 32768.0; the division is exact in
binary floating point, so rationals embed it faithfully. -/
def decodeAudioData (data : List Nat) (sampleRate : Nat) (numChannels : Nat) :
    Except AudioDecodeError (List (List ℚ)) :=
  if data.length % 2 ≠ 0 then .error .alignment
  else
    let dataInt16 := int16ValsLE data
    let frameCount := dataInt16.length / numChannels
    if frameCount = 0 then .error .notSupported
    else
      .ok ((List.range numChannels).map fun channel =>
        (List.range frameCount).map fun i =>
          ((dataInt16.getD (i * numChannels + channel) 0 : Int) : ℚ) / 32768)

/-- Outcome of one awaited call to the external audio generator
(ai.models.generateContent with audio modality, src/index.tsx line 216).
apiFailure models a rejected promise; apiSuccess carries the optional chain
response.candidates[0].content.parts[0].inlineData.data, none when any link is
absent. -/
inductive AudioOutcome
  | apiFailure
  | apiSuccess (base64Audio : Option String)
deriving DecidableEq

/-- The transient notice of the catch branch of handlePlayAudio
(src/index.tsx line 255). -/
def audioAlertMessage : String :=
  "Não foi possível gerar o áudio agora."

/-- Embeds handlePlayAudio (src/index.tsx lines 186-259). Returns the new state,
whether the external generator was invoked, and the list of alert notices shown.
A missing content record returns immediately; a playing session is toggled off
through stopAudio. Otherwise the loading flag is set and the generator awaited
inside try/catch/finally: a rejected call alerts; a resolved call with no
inline data does nothing; with data, a context is acquired and stored in the
ref, the payload decoded (an atob or decode exception lands in the catch and
alerts, with the context ref left populated), and on success a started source is
stored and the playing flag set. The finally branch clears the loading flag. -/
def handlePlayAudio (s : AppState) (o : AudioOutcome) :
    AppState × Bool × List String :=
  if s.content = none then (s, false, [])
  else if s.isPlaying then (stopAudio s, false, [])
  else
    let s1 := { s with isAudioLoading := true }
    match o with
    | .apiFailure => ({ s1 with isAudioLoading := false }, true, [audioAlertMessage])
    | .apiSuccess none => ({ s1 with isAudioLoading := false }, true, [])
    | .apiSuccess (some base64Audio) =>
      let s2 := { s1 with audioContext := some () }
      match base64ToUint8Array base64Audio with
      | none => ({ s2 with isAudioLoading := false }, true, [audioAlertMessage])
      | some audioBytes =>
        match decodeAudioData audioBytes 24000 1 with
        | .error _ => ({ s2 with isAudioLoading := false }, true, [audioAlertMessage])
        | .ok _ =>
          ({ s2 with audioSource := some { started := true }
                     isPlaying := true
                     isAudioLoading := false }, true, [])

/- Service worker (src/unnamed/part_000). -/

/-- Checks whether the pattern occurs at the head of the character list. -/
def leadsWith : List Char → List Char → Bool
  | [], _ => true
  | _ :: _, [] => false
  | p :: ps, c :: cs => p == c && leadsWith ps cs

/-- Checks whether the pattern occurs anywhere in the character list. -/
def hasSeq (pat : List Char) : List Char → Bool
  | [] => leadsWith pat []
  | c :: cs => leadsWith pat (c :: cs) || hasSeq pat cs

/-- String.prototype.includes: substring containment. -/
def jsIncludes (s pat : String) : Bool :=
  hasSeq pat.data s.data

/-- The allow-list test of the fetch listener (src/unnamed/part_000 lines
22-25): url.origin.includes over the four third-party hosts. -/
def isExternalOrigin (origin : String) : Bool :=
  jsIncludes origin "esm.sh" ||
  jsIncludes origin "cdn.tailwindcss.com" ||
  jsIncludes origin "fonts.googleapis.com" ||
  jsIncludes origin "fonts.gstatic.com"

/-- A request as the fetch listener sees it: the origin of its URL and the rest
of the URL, which together key the cache. -/
structure SWRequest where
  origin : String
  path : String
deriving DecidableEq

/-- One cache generation: request-keyed responses (bodies as strings). -/
abbrev SWCache := List (SWRequest × String)

/-- cache.match. -/
def cacheMatch (c : SWCache) (r : SWRequest) : Option String :=
  (c.find? fun kv => kv.1 == r).map fun kv => kv.2

/-- cache.put: overwrites the entry for the request. -/
def cachePut (c : SWCache) (r : SWRequest) (body : String) : SWCache :=
  (r, body) :: c.filter fun kv => !(kv.1 == r)

/-- Outcome of one fetch(request): a resolved response body or a rejection. -/
inductive NetResult
  | success (body : String)
  | failure
deriving DecidableEq

/-- What one dispatch of the fetch listener produces: the response delivered to
the page (none when the respondWith promise rejects and the network error
propagates), the cache generation afterwards, and whether a network request was
issued. -/
structure FetchResult where
  response : Option String
  cache : SWCache
  networkFetched : Bool
deriving DecidableEq

/-- Embeds the fetch listener (src/unnamed/part_000 lines 18-47). Allow-listed
origins get stale-while-revalidate: the cache is consulted, a network fetch is
issued unconditionally, a resolved network response is put into the cache (a
rejected one leaves the cache untouched and the rejection is dropped when a
cached response was already returned), and the delivered response is the cached
one if present, otherwise the network result. Every other origin gets
cache-first: a hit issues no fetch; a miss returns the network result directly
without populating the cache. -/
def handleFetchEvent (cache : SWCache) (req : SWRequest) (net : NetResult) :
    FetchResult :=
  if isExternalOrigin req.origin then
    let cached := cacheMatch cache req
    let cacheAfter :=
      match net with
      | .success body => cachePut cache req body
      | .failure => cache
    let resp :=
      match cached with
      | some r => some r
      | none =>
        match net with
        | .success body => some body
        | .failure => none
    { response := resp, cache := cacheAfter, networkFetched := true }
  else
    match cacheMatch cache req with
    | some r => { response := some r, cache := cache, networkFetched := false }
    | none =>
      match net with
      | .success body => { response := some body, cache := cache, networkFetched := true }
      | .failure => { response := none, cache := cache, networkFetched := true }

/-- The current cache generation name (src/unnamed/part_000 line 1). -/
def CACHE_NAME : String := "devocional-v8"

/-- Array.prototype.indexOf on a string array: the first index of the element,
or -1. -/
def jsIndexOf : List String → String → Int
  | [], _ => -1
  | a :: as, x =>
    if a == x then 0
    else
      let r := jsIndexOf as x
      if r = -1 then -1 else r + 1

/-- The set of stored cache generations, by name. -/
abbrev CacheSet := List (String × SWCache)

/-- caches.delete: removes the generation with the given name. -/
def cachesDelete (cs : CacheSet) (name : String) : CacheSet :=
  cs.filter fun kv => !(kv.1 == name)

/-- Embeds the activate listener (src/unnamed/part_000 lines 49-62):
caches.keys() enumerates the stored generation names, and every name whose
indexOf in the whitelist [CACHE_NAME] is -1 is deleted. -/
def activateHandler (cs : CacheSet) : CacheSet :=
  let cacheWhitelist := [CACHE_NAME]
  (cs.map Prod.fst).foldl
    (fun acc cacheName =>
      if jsIndexOf cacheWhitelist cacheName = -1 then cachesDelete acc cacheName
      else acc)
    cs

/-- A sample content record used by concrete witnesses. -/
def sampleContent : DevotionalContent :=
  { title := "X"
    verseReference := "Salmos 23:1"
    verseText := "t"
    reflection := "r"
    application := "a"
    prayer := "p" }

/- Helper lemmas. -/

lemma stopAudio_eq (s : AppState) :
    stopAudio s = { s with audioSource := none, audioContext := none,
                           isPlaying := false, isAudioLoading := false } := by
  rcases s with ⟨st, co, ct, v, il, un, src, ctx, ip, ial⟩
  cases src with
  | none => cases ctx <;> rfl
  | some h =>
    cases h with
    | mk b => cases b <;> cases ctx <;> rfl

lemma getItem_setItem_self (st : Store) (k : String) (v : StoredValue) :
    getItem (setItem st k v) k = some v := by
  simp [getItem, setItem, List.find?_cons_of_pos]

lemma cacheMatch_cachePut_self (c : SWCache) (r : SWRequest) (body : String) :
    cacheMatch (cachePut c r body) r = some body := by
  simp [cacheMatch, cachePut, List.find?_cons_of_pos]

/- Claim theorems. -/

/-- C8: stopAudio is idempotent and total. For every state it returns the state
with the source handle detached, the playback context released and both playing
flags cleared, without raising: the quantification covers states whose source
handle would make the underlying stop() call raise (a never-started handle, on
which sourceStopOp errors), and the embedded catch swallows that error. Calling
it twice in succession, or with no active session, gives the same cleared
state. -/
theorem stopAudio_idempotent_total : ∀ s : AppState,
    stopAudio s = { s with audioSource := none, audioContext := none,
                           isPlaying := false, isAudioLoading := false } ∧
    stopAudio (stopAudio s) = stopAudio s := by
  intro s
  refine ⟨stopAudio_eq s, ?_⟩
  rw [stopAudio_eq s, stopAudio_eq]

/-- C10: when no content record is loaded, handlePlayAudio is a no-op: the state
is returned unchanged (loading flag, playing flag, source and context refs all
untouched), the external generator is not invoked and no notice is shown. -/
theorem play_noop_without_content : ∀ (s : AppState) (o : AudioOutcome),
    s.content = none → handlePlayAudio s o = (s, false, []) := by
  intro s o h
  simp [handlePlayAudio, h]

theorem play_noop_without_content_witness :
    handlePlayAudio initialAppState AudioOutcome.apiFailure =
      (initialAppState, false, []) :=
  play_noop_without_content initialAppState AudioOutcome.apiFailure (by decide)

/-- C2: for every fetch whose origin is allow-listed, the handler applies
stale-while-revalidate: a network fetch is issued unconditionally; a cached
response, when present, is the one delivered; a resolved network response
overwrites the cache entry for the request; with no cached response the caller
gets the network result (the body on success, the propagated rejection on
failure); and a failed revalidation leaves the cache, in particular any
existing entry, untouched. -/
theorem stale_while_revalidate_policy :
    ∀ (cache : SWCache) (req : SWRequest) (net : NetResult),
    isExternalOrigin req.origin = true →
    (handleFetchEvent cache req net).networkFetched = true ∧
    (∀ v, cacheMatch cache req = some v →
      (handleFetchEvent cache req net).response = some v) ∧
    (∀ body, net = .success body →
      cacheMatch (handleFetchEvent cache req net).cache req = some body) ∧
    (cacheMatch cache req = none →
      (handleFetchEvent cache req net).response =
        match net with
        | .success body => some body
        | .failure => none) ∧
    (net = .failure → (handleFetchEvent cache req net).cache = cache) := by
  intro cache req net hext
  refine ⟨?_, ?_, ?_, ?_, ?_⟩
  · simp [handleFetchEvent, hext]
  · intro v hv
    cases net <;> simp [handleFetchEvent, hext, hv]
  · intro body hb
    subst hb
    simp [handleFetchEvent, hext, cacheMatch_cachePut_self]
  · intro hmiss
    cases net <;> simp [handleFetchEvent, hext, hmiss]
  · intro hf
    subst hf
    simp [handleFetchEvent, hext]

theorem stale_while_revalidate_policy_witness :
    (handleFetchEvent [(⟨"https://esm.sh", "/react"⟩, "old")]
        ⟨"https://esm.sh", "/react"⟩ (NetResult.success "new")).response = some "old" :=
  ((stale_while_revalidate_policy [(⟨"https://esm.sh", "/react"⟩, "old")]
      ⟨"https://esm.sh", "/react"⟩ (NetResult.success "new")
      (by decide)).2.1) "old" (by decide)

lemma jsIndexOf_single (a n : String) :
    jsIndexOf [a] n = -1 ↔ ¬ a = n := by
  by_cases h : a = n <;> simp [jsIndexOf, h]

lemma activate_foldl : ∀ (names : List String) (acc : CacheSet),
    names.foldl
      (fun acc cacheName =>
        if jsIndexOf [CACHE_NAME] cacheName = -1 then cachesDelete acc cacheName
        else acc)
      acc =
    acc.filter fun kv => kv.1 == CACHE_NAME || !(decide (kv.1 ∈ names))
  | [], acc => by
    simp
  | n :: ns, acc => by
    rw [List.foldl_cons]
    by_cases hn : CACHE_NAME = n
    · rw [if_neg (by simp [jsIndexOf_single, hn])]
      rw [activate_foldl ns acc]
      apply List.filter_congr
      intro kv _
      by_cases hk : kv.1 = CACHE_NAME
      · simp [hk]
      · simp [hk, hn ▸ hk]
    · rw [if_pos (by simp [jsIndexOf_single, hn])]
      rw [activate_foldl ns (cachesDelete acc n)]
      unfold cachesDelete
      rw [List.filter_filter]
      apply List.filter_congr
      intro kv _
      by_cases hkn : kv.1 = n
      · simp [hkn]
        exact fun h => hn h.symm
      · by_cases hk : kv.1 = CACHE_NAME <;> simp [hk, hkn]
        exact hn

/-- C3: the activate handler deletes exactly the stored generations whose name
differs from CACHE_NAME: for every set of stored generations the result is the
subset named CACHE_NAME, and in particular, with the current version
devocional-v8 and stored generations devocional-v7 and devocional-v8, only
devocional-v8 remains. -/
theorem cache_generation_gc :
    (∀ cs : CacheSet, activateHandler cs = cs.filter fun kv => kv.1 == CACHE_NAME) ∧
    activateHandler [("devocional-v7", []), ("devocional-v8", [])] =
      [("devocional-v8", [])] := by
  constructor
  · intro cs
    unfold activateHandler
    rw [activate_foldl]
    apply List.filter_congr
    intro kv hkv
    have hmem : kv.1 ∈ cs.map Prod.fst := List.mem_map_of_mem Prod.fst hkv
    simp [hmem]
  · decide

/-- C9: every topic call (a non-empty topic string: the twelve topic keys are
all non-empty, and an empty string would be falsy and take the daily branch)
invokes the external generator, regardless of the prior state — in particular
immediately after an identical call — and leaves localStorage untouched: the
generated result is never persisted. -/
theorem topic_bypass : ∀ (t : String), t ≠ "" →
    ∀ (today : String) (o : GenOutcome) (s : AppState),
    (generateDevotional (some t) today o s).2 = true ∧
    (generateDevotional (some t) today o s).1.store = s.store := by
  intro t ht today o s
  have hf : isFalsyTopic (some t) = false := by
    simp [isFalsyTopic, ht]
  constructor
  · cases o with
    | apiFailure => simp [generateDevotional, generateBody, hf]
    | apiSuccess text =>
      cases text with
      | none => simp [generateDevotional, generateBody, hf]
      | some sv => cases sv <;> simp [generateDevotional, generateBody, jsonParse, hf]
  · cases o with
    | apiFailure => simp [generateDevotional, generateBody, hf, stopAudio_eq]
    | apiSuccess text =>
      cases text with
      | none => simp [generateDevotional, generateBody, hf, stopAudio_eq]
      | some sv =>
        cases sv <;>
          simp [generateDevotional, generateBody, jsonParse, hf, stopAudio_eq]

theorem topic_bypass_witness :
    (generateDevotional (some "Fé") "01/01/2026" GenOutcome.apiFailure
        initialAppState).2 = true :=
  (topic_bypass "Fé" (by decide) "01/01/2026" GenOutcome.apiFailure
      initialAppState).1

lemma generateDevotional_daily_hit (s : AppState) (today : String)
    (c : DevotionalContent) (o : GenOutcome)
    (h : getItem s.store (dailyCacheKey today) = some (.json c)) :
    generateDevotional none today o s =
      ({ s with audioSource := none, audioContext := none, isPlaying := false,
                isAudioLoading := false, userNote := "", content := some c,
                currentTopic := "Devocional do Dia", view := View.reading },
       false) := by
  unfold generateDevotional
  rw [stopAudio_eq]
  simp [isFalsyTopic, h, jsonParse]

lemma generateBody_daily_parsed (today : String) (c : DevotionalContent)
    (s : AppState) :
    generateBody none today (.apiSuccess (some (.json c))) s =
      ({ s with isLoading := false, currentTopic := "Devocional do Dia",
                view := View.reading, content := some c,
                store := setItem s.store (dailyCacheKey today) (.json c) },
       true) := by
  simp [generateBody, jsonParse, isFalsyTopic, currentTopicLabel]

/-- After one daily call with a parseable successful outcome, the state shows
some record and the daily cache holds exactly that record. -/
lemma generateDevotional_daily_good (s : AppState) (today : String)
    (o : GenOutcome) (ho : isParseableSuccess o = true) :
    ∃ c : DevotionalContent,
      (generateDevotional none today o s).1.content = some c ∧
      getItem (generateDevotional none today o s).1.store (dailyCacheKey today) =
        some (.json c) := by
  obtain ⟨c0, rfl⟩ : ∃ c0, o = .apiSuccess (some (.json c0)) := by
    cases o with
    | apiFailure => exact absurd ho (by simp [isParseableSuccess])
    | apiSuccess text =>
      cases text with
      | none => exact absurd ho (by simp [isParseableSuccess])
      | some sv =>
        cases sv with
        | json c => exact ⟨c, rfl⟩
        | corrupt raw => exact absurd ho (by simp [isParseableSuccess])
  cases hget : getItem s.store (dailyCacheKey today) with
  | some sv =>
    cases sv with
    | json c1 =>
      refine ⟨c1, ?_, ?_⟩ <;>
        rw [generateDevotional_daily_hit s today c1 _ hget] <;> simpa using hget
    | corrupt raw =>
      refine ⟨c0, ?_, ?_⟩ <;>
        · unfold generateDevotional
          rw [stopAudio_eq]
          simp [isFalsyTopic, hget, jsonParse, generateBody_daily_parsed,
                getItem_setItem_self]
  | none =>
    refine ⟨c0, ?_, ?_⟩ <;>
      · unfold generateDevotional
        rw [stopAudio_eq]
        simp [isFalsyTopic, hget, generateBody_daily_parsed, getItem_setItem_self]

/-- From a state whose daily cache already holds a parseable record, any further
sequence of daily calls performs zero generator invocations and every call
shows that record. -/
lemma runDaily_cached (today : String) (c : DevotionalContent) :
    ∀ (os : List GenOutcome) (s : AppState),
    getItem s.store (dailyCacheKey today) = some (.json c) →
    (runDaily today os s).2.1 = 0 ∧
    ∀ x ∈ (runDaily today os s).2.2, x = some c
  | [], s, h => by simp [runDaily]
  | o :: os, s, h => by
    have hcall := generateDevotional_daily_hit s today c o h
    have hstore : (generateDevotional none today o s).1.store = s.store := by
      rw [hcall]
    have ih := runDaily_cached today c os (generateDevotional none today o s).1
      (by rw [hstore]; exact h)
    simp only [runDaily]
    rw [hcall] at ih ⊢
    simp only [if_neg (by simp : ¬ (false = true))] at *
    refine ⟨by simpa using ih.1, ?_⟩
    intro x hx
    simp only [List.mem_cons] at hx
    rcases hx with hx | hx
    · simp [hx]
    · exact ih.2 x hx

/-- C1: the daily cache short-circuits and memoizes. First conjunct: whenever a
parseable entry exists under the daily key, a daily call returns that cached
record and does not invoke the external generator. Second conjunct: a sequence
of N daily calls within one local day, with every invoked generation resolving
to a parseable record (the regime the claim describes, in which the first
generated result is persisted under the day key), performs at most one generator
invocation, and all N calls show one identical content record. -/
theorem daily_cache_idempotent :
    (∀ (s : AppState) (today : String) (c : DevotionalContent) (o : GenOutcome),
      getItem s.store (dailyCacheKey today) = some (StoredValue.json c) →
      (generateDevotional none today o s).2 = false ∧
      (generateDevotional none today o s).1.content = some c) ∧
    (∀ (today : String) (os : List GenOutcome) (s : AppState),
      os.all isParseableSuccess = true →
      (runDaily today os s).2.1 ≤ 1 ∧
      ∃ c : DevotionalContent, ∀ x ∈ (runDaily today os s).2.2, x = some c) := by
  constructor
  · intro s today c o h
    rw [generateDevotional_daily_hit s today c o h]
    exact ⟨rfl, rfl⟩
  · intro today os s hall
    cases os with
    | nil => exact ⟨by simp [runDaily], fallbackContent, by simp [runDaily]⟩
    | cons o os =>
      have ho : isParseableSuccess o = true := by
        simp [List.all_cons] at hall
        exact hall.1
      have hos : os.all isParseableSuccess = true := by
        simp [List.all_cons] at hall
        simpa [List.all_eq_true] using hall.2
      obtain ⟨c, hc, hcache⟩ := generateDevotional_daily_good s today o ho
      have hrest := runDaily_cached today c os
        (generateDevotional none today o s).1 hcache
      simp only [runDaily]
      constructor
      · rw [hrest.1]
        cases h2 : (generateDevotional none today o s).2 <;> simp
      · refine ⟨c, ?_⟩
        intro x hx
        simp only [List.mem_cons] at hx
        rcases hx with hx | hx
        · rw [hx, hc]
        · exact hrest.2 x hx

theorem daily_cache_idempotent_witness :
    (runDaily "01/01/2026"
      [GenOutcome.apiSuccess (some (StoredValue.json sampleContent)),
       GenOutcome.apiSuccess (some (StoredValue.json fallbackContent))]
      initialAppState).2.1 ≤ 1 :=
  (daily_cache_idempotent.2 "01/01/2026"
    [GenOutcome.apiSuccess (some (StoredValue.json sampleContent)),
     GenOutcome.apiSuccess (some (StoredValue.json fallbackContent))]
    initialAppState (by decide)).1

lemma generateBody_content_thrown (topic : Option String) (today : String)
    (o : GenOutcome) (s : AppState) (ho : isThrownFailure o = true) :
    (generateBody topic today o s).1.content = some fallbackContent := by
  cases o with
  | apiFailure => simp [generateBody]
  | apiSuccess text =>
    cases text with
    | none => simp [isThrownFailure] at ho
    | some sv =>
      cases sv with
      | json c => simp [isThrownFailure] at ho
      | corrupt raw => simp [generateBody, jsonParse]

lemma generateBody_content_empty (topic : Option String) (today : String)
    (s : AppState) :
    (generateBody topic today (.apiSuccess none) s).1.content = s.content := by
  simp [generateBody]

/-- C6 counterexample: the claim says the call always yields some content
record, but a resolved generator call with an empty response.text takes neither
the success branch (the guard if (text) fails) nor the catch branch, so no
fallback is installed: from a state with no loaded content, a topic call whose
outcome is an empty text leaves content absent even though the generator was
invoked. -/
theorem text_fallback_counterexample :
    (generateDevotional (some "Fé") "01/01/2026" (GenOutcome.apiSuccess none)
        initialAppState).1.content = none ∧
    (generateDevotional (some "Fé") "01/01/2026" (GenOutcome.apiSuccess none)
        initialAppState).2 = true := by
  decide

/-- C6 amended: for every thrown failure of the external generator call — a
rejected call or unparseable output — an invoked generateDevotional installs
the fixed hardcoded fallback record, and no error reaches the caller (the
embedded function is total: the try/catch appears as the total match on the
outcome). However, when the call resolves with empty output no fallback is
applied: the previously shown content, possibly none, is kept, so the call does
not always yield a content record. -/
theorem text_fallback_amended :
    (∀ (topic : Option String) (today : String) (o : GenOutcome) (s : AppState),
      isThrownFailure o = true →
      (generateDevotional topic today o s).2 = true →
      (generateDevotional topic today o s).1.content = some fallbackContent) ∧
    (∀ (topic : Option String) (today : String) (s : AppState),
      (generateDevotional topic today (.apiSuccess none) s).2 = true →
      (generateDevotional topic today (.apiSuccess none) s).1.content =
        s.content) := by
  constructor
  · intro topic today o s ho hinv
    unfold generateDevotional at hinv ⊢
    rw [stopAudio_eq] at hinv ⊢
    cases hft : isFalsyTopic topic with
    | false =>
      simp only [hft, Bool.false_eq_true, if_false] at hinv ⊢
      exact generateBody_content_thrown topic today o _ ho
    | true =>
      simp only [hft, if_true] at hinv ⊢
      cases hget : getItem s.store (dailyCacheKey today) with
      | some sv =>
        cases sv with
        | json c =>
          simp [hget, jsonParse] at hinv
        | corrupt raw =>
          simp only [hget, jsonParse] at hinv ⊢
          exact generateBody_content_thrown topic today o _ ho
      | none =>
        simp only [hget] at hinv ⊢
        exact generateBody_content_thrown topic today o _ ho
  · intro topic today s hinv
    unfold generateDevotional at hinv ⊢
    rw [stopAudio_eq] at hinv ⊢
    cases hft : isFalsyTopic topic with
    | false =>
      simp only [hft, Bool.false_eq_true, if_false] at hinv ⊢
      exact generateBody_content_empty topic today _
    | true =>
      simp only [hft, if_true] at hinv ⊢
      cases hget : getItem s.store (dailyCacheKey today) with
      | some sv =>
        cases sv with
        | json c =>
          simp [hget, jsonParse] at hinv
        | corrupt raw =>
          simp only [hget, jsonParse] at hinv ⊢
          exact generateBody_content_empty topic today _
      | none =>
        simp only [hget] at hinv ⊢
        exact generateBody_content_empty topic today _

theorem text_fallback_amended_witness :
    (generateDevotional (some "Fé") "01/01/2026" GenOutcome.apiFailure
        initialAppState).1.content = some fallbackContent :=
  text_fallback_amended.1 (some "Fé") "01/01/2026" GenOutcome.apiFailure
    initialAppState (by decide) (by decide)

/-- C7 counterexample: the claim says a generator call that returns no usable
audio data surfaces a transient notice, but when the resolved response carries
no inline data the try block simply skips playback and no alert is shown: from
a reading state, a call with outcome apiSuccess none invokes the generator and
produces an empty alert list. -/
theorem audio_failure_notice_counterexample :
    (handlePlayAudio { initialAppState with content := some sampleContent }
        (AudioOutcome.apiSuccess none)).2.2 = [] ∧
    (handlePlayAudio { initialAppState with content := some sampleContent }
        (AudioOutcome.apiSuccess none)).2.1 = true := by
  decide

/-- C7 amended: with content loaded and no session playing, whenever the
external audio generator call fails or returns no usable data, handlePlayAudio
starts no playback and leaves the pipeline non-playing and non-loading with the
source and context handles untouched; a thrown failure surfaces the transient
notice, but a resolved call with no usable data shows no notice at all. -/
theorem audio_failure_amended :
    ∀ (s : AppState) (o : AudioOutcome),
    s.content ≠ none → s.isPlaying = false →
    (o = .apiFailure ∨ o = .apiSuccess none) →
    ((handlePlayAudio s o).1.isPlaying = false ∧
     (handlePlayAudio s o).1.isAudioLoading = false ∧
     (handlePlayAudio s o).1.audioSource = s.audioSource ∧
     (handlePlayAudio s o).1.audioContext = s.audioContext ∧
     (handlePlayAudio s o).2.1 = true) ∧
    (o = .apiFailure → (handlePlayAudio s o).2.2 = [audioAlertMessage]) ∧
    (o = .apiSuccess none → (handlePlayAudio s o).2.2 = []) := by
  intro s o hc hp ho
  rcases ho with rfl | rfl <;> simp [handlePlayAudio, hc, hp]

theorem audio_failure_amended_witness :
    (handlePlayAudio { initialAppState with content := some sampleContent }
        AudioOutcome.apiFailure).2.2 = [audioAlertMessage] :=
  ((audio_failure_amended { initialAppState with content := some sampleContent }
      AudioOutcome.apiFailure (by decide) (by decide) (Or.inl rfl)).2.1) rfl

lemma b64Val_lt (c : Char) (v : Nat) (h : b64Val c = some v) : v < 64 := by
  simp only [b64Val] at h
  repeat' split at h
  all_goals simp only [Bool.and_eq_true, decide_eq_true_eq] at *
  all_goals injection h <;> omega

lemma mapB64_lt : ∀ (cs : List Char) (vals : List Nat),
    mapB64 cs = some vals → ∀ v ∈ vals, v < 64
  | [], vals, h => by
    simp [mapB64] at h
    subst h
    simp
  | c :: cs, vals, h => by
    simp only [mapB64] at h
    cases hc : b64Val c with
    | none => rw [hc] at h; simp at h
    | some v0 =>
      rw [hc] at h
      cases hcs : mapB64 cs with
      | none => rw [hcs] at h; simp at h
      | some vs =>
        rw [hcs] at h
        simp only [Option.some.injEq] at h
        subst h
        intro v hv
        rcases List.mem_cons.mp hv with rfl | hv
        · exact b64Val_lt c v hc
        · exact mapB64_lt cs vs hcs v hv

lemma b64Groups_lt : ∀ (vals bytes : List Nat),
    (∀ v ∈ vals, v < 64) → b64Groups vals = some bytes → ∀ x ∈ bytes, x < 256
  | [], bytes, _, h => by
    simp [b64Groups] at h
    subst h
    simp
  | [_], bytes, _, h => by simp [b64Groups] at h
  | [a, b], bytes, hv, h => by
    simp [b64Groups] at h
    subst h
    intro x hx
    simp at hx
    have ha := hv a (by simp)
    have hb := hv b (by simp)
    omega
  | [a, b, c], bytes, hv, h => by
    simp [b64Groups] at h
    subst h
    intro x hx
    simp at hx
    have ha := hv a (by simp)
    have hb := hv b (by simp)
    have hc := hv c (by simp)
    rcases hx with rfl | rfl <;> omega
  | [a, b, c, d], bytes, hv, h => by
    simp [b64Groups] at h
    subst h
    intro x hx
    simp at hx
    have ha := hv a (by simp)
    have hb := hv b (by simp)
    have hc := hv c (by simp)
    have hd := hv d (by simp)
    rcases hx with rfl | rfl | rfl <;> omega
  | a :: b :: c :: d :: r1 :: rest, bytes, hv, h => by
    simp only [b64Groups] at h
    cases hr : b64Groups (r1 :: rest) with
    | none => rw [hr] at h; simp at h
    | some t =>
      rw [hr] at h
      simp only [Option.some.injEq] at h
      subst h
      intro x hx
      simp only [List.cons_append, List.nil_append, List.mem_cons] at hx
      have ha := hv a (by simp)
      have hb := hv b (by simp)
      have hc := hv c (by simp)
      have hd := hv d (by simp)
      rcases hx with rfl | rfl | rfl | hx
      · omega
      · omega
      · omega
      · exact b64Groups_lt (r1 :: rest) t
          (fun v hvm => hv v (by simp [List.mem_cons] at hvm ⊢; tauto)) hr x hx

lemma atobCore_lt (cs : List Char) (bytes : List Nat)
    (h : atobCore cs = some bytes) : ∀ x ∈ bytes, x < 256 := by
  unfold atobCore at h
  split at h
  · exact absurd h (by simp)
  · split at h
    · rename_i vals heq
      exact b64Groups_lt vals bytes (mapB64_lt _ vals heq) h
    · exact absurd h (by simp)

lemma base64ToUint8Array_lt (p : String) (bytes : List Nat)
    (h : base64ToUint8Array p = some bytes) : ∀ x ∈ bytes, x < 256 := by
  simp only [base64ToUint8Array] at h
  split at h <;> exact atobCore_lt _ bytes h

lemma int16OfLE_bounds (lo hi : Nat) (hlo : lo < 256) (hhi : hi < 256) :
    -32768 ≤ int16OfLE lo hi ∧ int16OfLE lo hi ≤ 32767 := by
  simp only [int16OfLE]
  split <;> omega

lemma int16ValsLE_length : ∀ l : List Nat, (int16ValsLE l).length = l.length / 2
  | [] => by simp [int16ValsLE]
  | [_] => by simp [int16ValsLE]
  | lo :: hi :: rest => by
    have ih := int16ValsLE_length rest
    simp [int16ValsLE, ih]
    try omega


lemma int16ValsLE_bounds : ∀ l : List Nat, (∀ b ∈ l, b < 256) →
    ∀ v ∈ int16ValsLE l, -32768 ≤ v ∧ v ≤ 32767
  | [], _, v, hv => by simp [int16ValsLE] at hv
  | [_], _, v, hv => by simp [int16ValsLE] at hv
  | lo :: hi :: rest, hb, v, hv => by
    simp only [int16ValsLE, List.mem_cons] at hv
    rcases hv with rfl | hv
    · exact int16OfLE_bounds lo hi (hb lo (by simp)) (hb hi (by simp))
    · exact int16ValsLE_bounds rest (fun b hbm => hb b (by simp [hbm])) v hv

lemma map_range_getD (l : List Int) (f : Int → ℚ) :
    (List.range l.length).map (fun i => f (l.getD i 0)) = l.map f := by
  induction l with
  | nil => simp
  | cons a t ih =>
    rw [List.length_cons, List.range_succ_eq_map]
    simp only [List.map_cons, List.map_map, List.getD_cons_zero]
    refine congrArg (f a :: ·) ?_
    rw [← ih]
    apply List.map_congr_left
    intro i _
    simp [Function.comp]

lemma decodeAudioData_one (bytes : List Nat) (h2 : bytes.length % 2 = 0)
    (h0 : bytes ≠ []) :
    decodeAudioData bytes 24000 1 =
      .ok [(int16ValsLE bytes).map fun v => ((v : Int) : ℚ) / 32768] := by
  have hlen : (int16ValsLE bytes).length = bytes.length / 2 :=
    int16ValsLE_length bytes
  have hl0 : bytes.length ≠ 0 := fun h => h0 (List.length_eq_zero.mp h)
  simp only [decodeAudioData]
  rw [if_neg (by omega : ¬ bytes.length % 2 ≠ 0)]
  rw [if_neg (by rw [Nat.div_one, hlen]; omega :
        ¬ (int16ValsLE bytes).length / 1 = 0)]
  simp only [Nat.div_one, Nat.mul_one, Nat.add_zero,
    show List.range 1 = [0] from rfl, List.map_cons, List.map_nil]
  rw [map_range_getD (int16ValsLE bytes) (fun v => ((v : Int) : ℚ) / 32768)]

/-- C4 counterexample: the claim says every valid base64 payload with one
channel yields a sample count of half the decoded byte count, but the empty
decode — a valid, aligned payload; the whitespace-only string is even truthy in
JavaScript and passes the guard before the decode — produces zero frames, and
ctx.createBuffer(1, 0, 24000) throws NotSupportedError instead of yielding a
buffer with 0 samples. -/
theorem codec_interpret_samples_counterexample :
    base64ToUint8Array " " = some [] ∧
    decodeAudioData [] 24000 1 = .error .notSupported := by
  constructor <;> rfl

/-- C4 amended: with one channel, for every valid encoded payload, when the
decoded byte buffer is non-empty and of even length the decode step yields
exactly one sample array, namely the little-endian signed 16-bit samples in
order each divided by 32768, with sample count equal to half the decoded byte
count, every pre-normalization sample in [-32768, 32767] and every normalized
sample in [-1, 1]; but the empty decode, although aligned, fails with the
zero-length-buffer error of createBuffer, and an odd-length decode fails with
the alignment error of the Int16Array view. -/
theorem codec_interpret_samples :
    ∀ (payload : String) (bytes : List Nat),
    base64ToUint8Array payload = some bytes →
    (bytes.length % 2 = 0 → bytes ≠ [] →
      decodeAudioData bytes 24000 1 =
        .ok [(int16ValsLE bytes).map fun v => ((v : Int) : ℚ) / 32768] ∧
      (int16ValsLE bytes).length = bytes.length / 2 ∧
      (∀ v ∈ int16ValsLE bytes, -32768 ≤ v ∧ v ≤ 32767) ∧
      (∀ q ∈ (int16ValsLE bytes).map (fun v => ((v : Int) : ℚ) / 32768),
        -1 ≤ q ∧ q ≤ 1)) ∧
    (bytes = [] → decodeAudioData bytes 24000 1 = .error .notSupported) ∧
    (bytes.length % 2 = 1 → decodeAudioData bytes 24000 1 = .error .alignment) := by
  intro payload bytes hdec
  refine ⟨?_, ?_, ?_⟩
  · intro h2 h0
    have hbyte := base64ToUint8Array_lt payload bytes hdec
    have hbounds := int16ValsLE_bounds bytes hbyte
    refine ⟨decodeAudioData_one bytes h2 h0, int16ValsLE_length bytes, hbounds, ?_⟩
    intro q hq
    simp only [List.mem_map] at hq
    obtain ⟨v, hv, rfl⟩ := hq
    obtain ⟨hv1, hv2⟩ := hbounds v hv
    constructor
    · rw [le_div_iff₀ (by norm_num : (0 : ℚ) < 32768)]
      have hcast : (-32768 : ℚ) ≤ (v : ℚ) := by exact_mod_cast hv1
      linarith
    · rw [div_le_one (by norm_num : (0 : ℚ) < 32768)]
      have hcast : (v : ℚ) ≤ 32767 := by exact_mod_cast hv2
      linarith
  · intro h0
    subst h0
    rfl
  · intro hodd
    simp only [decodeAudioData]
    rw [if_pos (by omega : bytes.length % 2 ≠ 0)]

theorem codec_interpret_samples_witness :
    decodeAudioData [0, 0, 0, 0, 0, 0] 24000 1 =
      .ok [(int16ValsLE [0, 0, 0, 0, 0, 0]).map fun v => ((v : Int) : ℚ) / 32768] ∧
    (int16ValsLE [0, 0, 0, 0, 0, 0]).length = [0, 0, 0, 0, 0, 0].length / 2 :=
  ⟨((codec_interpret_samples "AAAAAAAA" [0, 0, 0, 0, 0, 0] (by decide)).1
      (by decide) (by decide)).1,
   ((codec_interpret_samples "AAAAAAAA" [0, 0, 0, 0, 0, 0] (by decide)).1
      (by decide) (by decide)).2.1⟩

/-- C5 counterexample: the claim says decodeAudioData with two channels fails
with AlignmentError on every byte length not divisible by 4, but on the
six-byte buffer [1, 2, 3, 4, 5, 6] it succeeds: there is no alignment check,
the fractional frame count 1.5 is truncated by the unsigned-long conversion in
createBuffer, and a two-channel buffer with one frame per channel is
returned. -/
theorem alignment_rejection_counterexample :
    (decodeAudioData [1, 2, 3, 4, 5, 6] 24000 2).toOption.map List.length
        = some 2 ∧
    (decodeAudioData [1, 2, 3, 4, 5, 6] 24000 2).toOption.isSome = true := by
  constructor <;> rfl

/-- C5 amended: with two channels, an odd byte length fails (the RangeError of
the Int16Array view, the alignment failure); but an even length not divisible
by 4 is not rejected: the frame count is truncated to the floor of length / 4
and decoding succeeds whenever that floor is positive, each channel holding
floor(length / 4) samples read at interleaved positions i * 2 + channel; the
residual case of exactly two bytes fails only because the truncated frame count
is zero, a NotSupportedError of createBuffer, not an alignment rejection. -/
theorem alignment_rejection_amended : ∀ bytes : List Nat,
    (bytes.length % 2 = 1 → decodeAudioData bytes 24000 2 = .error .alignment) ∧
    (bytes.length % 4 = 2 → 2 < bytes.length →
      decodeAudioData bytes 24000 2 =
        .ok ((List.range 2).map fun channel =>
          (List.range (bytes.length / 4)).map fun i =>
            (((int16ValsLE bytes).getD (i * 2 + channel) 0 : Int) : ℚ) / 32768)) ∧
    (bytes.length = 2 → decodeAudioData bytes 24000 2 = .error .notSupported) := by
  intro bytes
  have hlen : (int16ValsLE bytes).length = bytes.length / 2 :=
    int16ValsLE_length bytes
  refine ⟨?_, ?_, ?_⟩
  · intro h
    simp only [decodeAudioData]
    rw [if_pos (by omega : bytes.length % 2 ≠ 0)]
  · intro h4 hgt
    simp only [decodeAudioData]
    rw [if_neg (by omega : ¬ bytes.length % 2 ≠ 0)]
    rw [if_neg (by rw [hlen]; omega : ¬ (int16ValsLE bytes).length / 2 = 0)]
    rw [hlen, Nat.div_div_eq_div_mul]
  · intro h
    simp only [decodeAudioData]
    rw [if_neg (by omega : ¬ bytes.length % 2 ≠ 0)]
    rw [if_pos (by rw [hlen, h] : (int16ValsLE bytes).length / 2 = 0)]

theorem alignment_rejection_amended_witness :
    decodeAudioData [1] 24000 2 = .error .alignment ∧
    decodeAudioData [1, 2, 3, 4, 5, 6] 24000 2 =
      .ok ((List.range 2).map fun channel =>
        (List.range ([1, 2, 3, 4, 5, 6].length / 4)).map fun i =>
          (((int16ValsLE [1, 2, 3, 4, 5, 6]).getD (i * 2 + channel) 0 : Int) : ℚ)
            / 32768) ∧
    decodeAudioData [9, 9] 24000 2 = .error .notSupported :=
  ⟨(alignment_rejection_amended [1]).1 (by decide),
   (alignment_rejection_amended [1, 2, 3, 4, 5, 6]).2.1 (by decide) (by decide),
   (alignment_rejection_amended [9, 9]).2.2 (by decide)⟩

end DevocionalApp
